import Mathlib

/-!
Verification of the Homa transport protocol header (homa_impl.h) against its
natural-language specification. The header file contains the data model
(packet wire formats, RPC records, global state) and one inline function
(check_pacer); the corresponding .c implementation files are not part of the
sources, so operations on the data model are modelled from the specification
where noted.
-/

namespace Homa

/-! ## Protocol constants (homa_impl.h) -/

/-- Largest permissible message size, in bytes (HOMA_MAX_MESSAGE_SIZE). -/
def HOMA_MAX_MESSAGE_SIZE : Int := 1000000

/-- Largest allowable Homa header (HOMA_MAX_HEADER). -/
def HOMA_MAX_HEADER : Nat := 64

/-- Total number of priority levels available for Homa (HOMA_NUM_PRIORITIES). -/
def HOMA_NUM_PRIORITIES : Nat := 8

/-! ## Packed-struct layout model

All Homa wire structs carry attribute packed, so the byte offset of field i
is the sum of the sizes of the fields declared before it, and the size of the
struct is the sum of all field sizes. We record each struct as the list of
its field widths in declaration order. -/

/-- Size in bytes of a packed struct given its field widths. -/
def structSize (fields : List Nat) : Nat := fields.sum

/-- Byte offset of field i of a packed struct given the field widths. -/
def fieldOffset (fields : List Nat) (i : Nat) : Nat := (fields.take i).sum

/-- Field widths of struct common_header, in declaration order:
sport (be16), dport (be16), unused1 (be32), unused2 (be32), doff (u8),
type (u8), unused3 (be16), checksum (be16), unused4 (be16), id (64-bit). -/
def common_header_fields : List Nat := [2, 2, 4, 4, 1, 1, 2, 2, 2, 8]

/-- Size of struct common_header. -/
def sizeof_common_header : Nat := structSize common_header_fields

/-- Field widths of struct data_segment: offset (be32), segment_length (be32),
data (flexible array member, zero bytes in sizeof). -/
def data_segment_fields : List Nat := [4, 4, 0]

/-- Size of struct data_segment. -/
def sizeof_data_segment : Nat := structSize data_segment_fields

/-- Field widths of struct data_header: common, message_length (be32),
incoming (be32), cutoff_version (be16), retransmit (u8), pad (u8), seg. -/
def data_header_fields : List Nat :=
  [sizeof_common_header, 4, 4, 2, 1, 1, sizeof_data_segment]

/-- Size of struct data_header. -/
def sizeof_data_header : Nat := structSize data_header_fields

/-- Field widths of struct grant_header: common, offset (be32), priority (u8). -/
def grant_header_fields : List Nat := [sizeof_common_header, 4, 1]

/-- Size of struct grant_header. -/
def sizeof_grant_header : Nat := structSize grant_header_fields

/-- Field widths of struct resend_header: common, offset (be32),
length (be32), priority (u8). -/
def resend_header_fields : List Nat := [sizeof_common_header, 4, 4, 1]

/-- Size of struct resend_header. -/
def sizeof_resend_header : Nat := structSize resend_header_fields

/-- Field widths of struct restart_header: just the common header. -/
def restart_header_fields : List Nat := [sizeof_common_header]

/-- Size of struct restart_header. -/
def sizeof_restart_header : Nat := structSize restart_header_fields

/-- Field widths of struct busy_header: just the common header. -/
def busy_header_fields : List Nat := [sizeof_common_header]

/-- Size of struct busy_header. -/
def sizeof_busy_header : Nat := structSize busy_header_fields

/-- Field widths of struct cutoffs_header: common, eight be32 unscheduled
cutoff entries, cutoff_version (be16). -/
def cutoffs_header_fields : List Nat :=
  sizeof_common_header :: List.replicate HOMA_NUM_PRIORITIES 4 ++ [2]

/-- Size of struct cutoffs_header. -/
def sizeof_cutoffs_header : Nat := structSize cutoffs_header_fields

/-- Field widths of struct freeze_header: just the common header. -/
def freeze_header_fields : List Nat := [sizeof_common_header]

/-- Size of struct freeze_header. -/
def sizeof_freeze_header : Nat := structSize freeze_header_fields

/-- Field widths of the leading fields of a TCP header: source port (2),
destination port (2), sequence number (4), acknowledgment number (4),
followed by the byte holding the 4-bit data offset. -/
def tcp_header_fields : List Nat := [2, 2, 4, 4, 1]

/-- Value that homa_set_doff stores into the doff byte of a data_header:
the size of the fixed data_header part (everything before the segments)
shifted left by 2, truncated to eight bits. The high-order four bits of the
doff byte then hold the number of 4-byte chunks in that fixed part. -/
def homa_set_doff_value : Nat :=
  ((sizeof_data_header - sizeof_data_segment) <<< 2) % 256

/-! ## check_pacer (homa_impl.h, inline)

Shallow embedding of check_pacer. The state holds the fields of struct homa
that the function consults: throttled_rpcs (modelled as the list of
throttled RPC ids; list_first_or_null_rcu returns NULL exactly when the list
is empty), link_idle_time and max_nic_queue_cycles. The current value of
get_cycles() is passed explicitly. The result records whether
homa_pacer_xmit was invoked together with the (unchanged) state; the softirq
argument is merely forwarded to homa_pacer_xmit so it is omitted. -/

structure HomaPacerState where
  throttled_rpcs : List Nat
  link_idle_time : Int
  max_nic_queue_cycles : Int
deriving DecidableEq, Repr

/-- Embedding of check_pacer: return early if the throttled list is empty;
return early if now + max_nic_queue_cycles < link_idle_time; otherwise
invoke homa_pacer_xmit. -/
def check_pacer (s : HomaPacerState) (now : Int) : Bool × HomaPacerState :=
  if s.throttled_rpcs = [] then (false, s)
  else if now + s.max_nic_queue_cycles < s.link_idle_time then (false, s)
  else (true, s)

/-! ## Claim theorems: layout -/

/-- C5: sizeof(struct common_header) = 28 bytes; sport occupies byte
offsets 0-1, dport occupies 2-3, and doff occupies byte offset 12 - the
same positions as the source-port, destination-port and data-offset fields
of a TCP header. -/
theorem C5_common_header_layout :
    sizeof_common_header = 28
    ∧ fieldOffset common_header_fields 0 = 0
    ∧ common_header_fields.getD 0 0 = 2
    ∧ fieldOffset common_header_fields 1 = 2
    ∧ common_header_fields.getD 1 0 = 2
    ∧ fieldOffset common_header_fields 4 = 12
    ∧ common_header_fields.getD 4 0 = 1
    ∧ fieldOffset tcp_header_fields 0 = fieldOffset common_header_fields 0
    ∧ fieldOffset tcp_header_fields 1 = fieldOffset common_header_fields 1
    ∧ fieldOffset tcp_header_fields 4 = fieldOffset common_header_fields 4 := by
  decide

/-- C6: each of the seven packet header structs fits in
HOMA_MAX_HEADER = 64 bytes, so all the _Static_assert conditions hold;
cutoffs_header is the largest at 62 bytes. -/
theorem C6_headers_fit :
    HOMA_MAX_HEADER = 64
    ∧ sizeof_data_header ≤ HOMA_MAX_HEADER
    ∧ sizeof_grant_header ≤ HOMA_MAX_HEADER
    ∧ sizeof_resend_header ≤ HOMA_MAX_HEADER
    ∧ sizeof_restart_header ≤ HOMA_MAX_HEADER
    ∧ sizeof_busy_header ≤ HOMA_MAX_HEADER
    ∧ sizeof_cutoffs_header ≤ HOMA_MAX_HEADER
    ∧ sizeof_freeze_header ≤ HOMA_MAX_HEADER
    ∧ sizeof_cutoffs_header = 62
    ∧ sizeof_data_header ≤ sizeof_cutoffs_header
    ∧ sizeof_grant_header ≤ sizeof_cutoffs_header
    ∧ sizeof_resend_header ≤ sizeof_cutoffs_header
    ∧ sizeof_restart_header ≤ sizeof_cutoffs_header
    ∧ sizeof_busy_header ≤ sizeof_cutoffs_header
    ∧ sizeof_freeze_header ≤ sizeof_cutoffs_header := by
  decide

/-- C9: the fixed part of a DATA packet,
sizeof(data_header) - sizeof(data_segment), equals 40 bytes, a multiple
of 4; homa_set_doff stores 40 << 2 = 160 into the doff byte, whose
high-order four bits equal 10 = 40/4 (the number of 4-byte chunks in the
fixed part) and whose low-order four bits are zero. -/
theorem C9_doff_encoding :
    sizeof_data_header - sizeof_data_segment = 40
    ∧ (sizeof_data_header - sizeof_data_segment) % 4 = 0
    ∧ homa_set_doff_value = 160
    ∧ homa_set_doff_value >>> 4 = 10
    ∧ homa_set_doff_value >>> 4 = (sizeof_data_header - sizeof_data_segment) / 4
    ∧ homa_set_doff_value % 16 = 0 := by
  decide

/-! ## Claim theorems: check_pacer -/

/-- C2: check_pacer invokes homa_pacer_xmit if and only if the
throttled_rpcs list is non-empty and get_cycles() + max_nic_queue_cycles is
at least link_idle_time; in every case (in particular when it does not
invoke homa_pacer_xmit) it leaves the state unchanged. -/
theorem C2_check_pacer (s : HomaPacerState) (now : Int) :
    ((check_pacer s now).1 = true ↔
      (s.throttled_rpcs ≠ [] ∧
        now + s.max_nic_queue_cycles ≥ s.link_idle_time))
    ∧ (check_pacer s now).2 = s := by
  unfold check_pacer
  by_cases hempty : s.throttled_rpcs = []
  · simp [hempty]
  · by_cases hfull : now + s.max_nic_queue_cycles < s.link_idle_time
    · rw [if_neg hempty, if_pos hfull]
      refine ⟨?_, rfl⟩
      simp only [Bool.false_eq_true, false_iff, not_and, ge_iff_le, not_le]
      intro _
      omega
    · rw [if_neg hempty, if_neg hfull]
      exact ⟨iff_of_true rfl ⟨hempty, by omega⟩, rfl⟩

/-- Witness for C2 at a concrete state: one throttled RPC with slack
occupancy, where check_pacer fires. -/
theorem C2_check_pacer_witness :
    ((check_pacer ⟨[7], 100, 50⟩ 60).1 = true ↔
      (([7] : List Nat) ≠ [] ∧ (60 : Int) + 50 ≥ 100))
    ∧ (check_pacer ⟨[7], 100, 50⟩ 60).2 = ⟨[7], 100, 50⟩ :=
  C2_check_pacer ⟨[7], 100, 50⟩ 60

/-! ## Outgoing and incoming message descriptors

The struct homa_message_out fields length, unscheduled and granted are
declared in homa_impl.h (the bytes_sent field abstracts the next_packet
cursor: the byte offset of the first not-yet-transmitted packet). The
operations on the descriptor live in homa_outgoing.c, which is not among
the sources, so they are modelled from the specification. Two documented
facts from homa_impl.h are load-bearing: unscheduled "May be larger than
@length", and granted is "Never larger than @length". -/

structure homa_message_out where
  length : Int
  bytes_sent : Int
  unscheduled : Int
  granted : Int
deriving DecidableEq, Repr

/-- Modelled from the spec: homa_message_out_init (homa_outgoing.c is not in
the sources). Creation fails for a negative length or one beyond
HOMA_MAX_MESSAGE_SIZE. The unscheduled window is computed from rtt_bytes
and the cutoffs and may exceed the length, so it is passed in here as a
nonnegative parameter; granted is initialised to unscheduled, clamped so it
never exceeds length; nothing has been transmitted yet. -/
def homa_message_out_init (len unsched : Int) : Option homa_message_out :=
  if 0 ≤ len ∧ len ≤ HOMA_MAX_MESSAGE_SIZE ∧ 0 ≤ unsched then
    some { length := len, bytes_sent := 0, unscheduled := unsched,
           granted := min unsched len }
  else none

/-- Modelled from the spec: the two operations that change an outgoing
descriptor after creation. homa_xmit_data advances the transmission cursor,
never past granted; homa_grant_pkt widens granted when the GRANT offset
exceeds the current value, clamped so granted never exceeds length. -/
inductive OutStep : homa_message_out → homa_message_out → Prop
  | xmit (m : homa_message_out) (d : Int) (h0 : 0 ≤ d)
      (hd : m.bytes_sent + d ≤ m.granted) :
      OutStep m { m with bytes_sent := m.bytes_sent + d }
  | grant (m : homa_message_out) (offset : Int) :
      OutStep m { m with granted := max m.granted (min offset m.length) }

/-- Outgoing descriptors reachable from creation by grant and transmit
steps. -/
inductive OutReachable : homa_message_out → Prop
  | init (len unsched : Int) (m : homa_message_out)
      (h : homa_message_out_init len unsched = some m) : OutReachable m
  | step (m m' : homa_message_out) (h : OutReachable m)
      (hs : OutStep m m') : OutReachable m'

/-- The struct homa_message_in fields used by the claims: total_length,
bytes_remaining and incoming, as declared in homa_impl.h. -/
structure homa_message_in where
  total_length : Int
  bytes_remaining : Int
  incoming : Int
deriving DecidableEq, Repr

/-- Modelled from the spec: homa_message_in_init (homa_incoming.c is not in
the sources). The message size is bounded at HOMA_MAX_MESSAGE_SIZE; no
bytes have been received yet, and the incoming watermark is clamped so it
never exceeds total_length. -/
def homa_message_in_init (len inc : Int) : Option homa_message_in :=
  if 0 ≤ len ∧ len ≤ HOMA_MAX_MESSAGE_SIZE ∧ 0 ≤ inc then
    some { total_length := len, bytes_remaining := len,
           incoming := min inc len }
  else none

/-- C1 counterexample: the claim that unscheduled ≤ granted once sending has
begun fails on a short message. A 500-byte message created with a
10000-byte unscheduled window (homa_impl.h: unscheduled "May be larger than
@length") and then fully transmitted is reachable, has begun sending, yet
its granted = 500 (clamped to length) is far below unscheduled = 10000. -/
theorem C1_unscheduled_counterexample :
    OutReachable ⟨500, 500, 10000, 500⟩
    ∧ 0 < (⟨500, 500, 10000, 500⟩ : homa_message_out).bytes_sent
    ∧ ¬ (⟨500, 500, 10000, 500⟩ : homa_message_out).unscheduled ≤
        (⟨500, 500, 10000, 500⟩ : homa_message_out).granted := by
  refine ⟨?_, by norm_num, by norm_num⟩
  have hinit : homa_message_out_init 500 10000 =
      some ⟨500, 0, 10000, 500⟩ := by decide
  have hstep : OutStep ⟨500, 0, 10000, 500⟩ ⟨500, 500, 10000, 500⟩ := by
    have h := OutStep.xmit ⟨500, 0, 10000, 500⟩ 500 (by norm_num) (by norm_num)
    simpa using h
  exact OutReachable.step _ _ (OutReachable.init 500 10000 _ hinit) hstep

/-- C1 (amended): every reachable outgoing descriptor satisfies
0 ≤ bytes_sent ≤ granted ≤ length, and min(unscheduled, length) ≤ granted
(so unscheduled ≤ granted whenever unscheduled ≤ length; the unconditional
bound unscheduled ≤ granted fails for messages shorter than the unscheduled
window, since granted never exceeds length while unscheduled may). -/
theorem C1_msgout_invariant (m : homa_message_out) (h : OutReachable m) :
    0 ≤ m.bytes_sent ∧ m.bytes_sent ≤ m.granted ∧ m.granted ≤ m.length
    ∧ min m.unscheduled m.length ≤ m.granted := by
  induction h with
  | init len unsched m hinit =>
    unfold homa_message_out_init at hinit
    split at hinit
    · next hcond =>
      obtain ⟨h1, _, h3⟩ := hcond
      cases hinit
      refine ⟨le_refl 0, ?_, ?_, le_refl _⟩
      · exact le_min h3 h1
      · exact min_le_right _ _
    · exact absurd hinit (Option.some_ne_none _).symm
  | step m m' _ hs ih =>
    obtain ⟨ih0, ih1, ih2, ih3⟩ := ih
    cases hs with
    | xmit d h0 hd =>
      dsimp only
      exact ⟨by omega, hd, ih2, ih3⟩
    | grant offset =>
      dsimp only
      refine ⟨ih0, le_max_of_le_left ih1, ?_, le_max_of_le_left ih3⟩
      simp only [max_le_iff]
      exact ⟨ih2, min_le_right _ _⟩

/-- Witness for C1 at a concrete reachable descriptor: the freshly created
500-byte message with a 300-byte unscheduled window. -/
theorem C1_msgout_invariant_witness :
    0 ≤ (⟨500, 0, 300, 300⟩ : homa_message_out).bytes_sent
    ∧ (⟨500, 0, 300, 300⟩ : homa_message_out).bytes_sent ≤
        (⟨500, 0, 300, 300⟩ : homa_message_out).granted
    ∧ (⟨500, 0, 300, 300⟩ : homa_message_out).granted ≤
        (⟨500, 0, 300, 300⟩ : homa_message_out).length
    ∧ min (⟨500, 0, 300, 300⟩ : homa_message_out).unscheduled
        (⟨500, 0, 300, 300⟩ : homa_message_out).length ≤
        (⟨500, 0, 300, 300⟩ : homa_message_out).granted :=
  C1_msgout_invariant ⟨500, 0, 300, 300⟩
    (OutReachable.init 500 300 _ (by decide))

/-- C8: HOMA_MAX_MESSAGE_SIZE is 1,000,000 bytes, and no creation produces
an outgoing descriptor whose length, or an incoming descriptor whose
total_length, exceeds it. -/
theorem C8_message_size_bound :
    HOMA_MAX_MESSAGE_SIZE = 1000000
    ∧ (∀ len unsched m, homa_message_out_init len unsched = some m →
        m.length ≤ HOMA_MAX_MESSAGE_SIZE)
    ∧ (∀ len inc mi, homa_message_in_init len inc = some mi →
        mi.total_length ≤ HOMA_MAX_MESSAGE_SIZE) := by
  refine ⟨rfl, ?_, ?_⟩
  · intro len unsched m h
    unfold homa_message_out_init at h
    split at h
    · next hcond => cases h; exact hcond.2.1
    · exact absurd h (Option.some_ne_none _).symm
  · intro len inc mi h
    unfold homa_message_in_init at h
    split at h
    · next hcond => cases h; exact hcond.2.1
    · exact absurd h (Option.some_ne_none _).symm

/-- Witness for C8 at concrete creations: a 500-byte outgoing message and a
750-byte incoming message. -/
theorem C8_message_size_bound_witness :
    (⟨500, 0, 1000, 500⟩ : homa_message_out).length ≤ HOMA_MAX_MESSAGE_SIZE
    ∧ (⟨750, 750, 700⟩ : homa_message_in).total_length ≤
        HOMA_MAX_MESSAGE_SIZE :=
  ⟨C8_message_size_bound.2.1 500 1000 _ (by decide),
   C8_message_size_bound.2.2 750 700 _ (by decide)⟩

/-! ## RPC state machine

The state enum is declared in homa_impl.h inside struct homa_rpc. The
operations that change the state live in the .c files, which are not among
the sources, so the per-operation transitions are modelled from the
specification: the first DATA of the response moves a client RPC from
OUTGOING to INCOMING; reassembly completion moves either side from INCOMING
to READY; the application reading moves the server to IN_SERVICE and the
client to CLIENT_DONE; the application replying moves the server from
IN_SERVICE to OUTGOING; a RESTART packet (client side only, see the
restart_header comment in homa_impl.h) discards any partial inbound
response and re-enters OUTGOING; and the timer abort after too many
fruitless RESENDs sets the error field of a client RPC awaiting data
(whether still OUTGOING or already INCOMING) and moves it to READY so the
next reader observes the failure, while a server RPC that times out is
destroyed silently - the RPC ceases to exist rather than changing state,
so the abort yields no transition on the server side. -/

inductive Role where
  | client
  | server
deriving DecidableEq, Repr

inductive RpcState where
  | RPC_OUTGOING
  | RPC_INCOMING
  | RPC_READY
  | RPC_IN_SERVICE
  | RPC_CLIENT_DONE
deriving DecidableEq, Repr

/-- Operations of the protocol engine that may change an RPC's state. -/
inductive RpcOp where
  | dataPkt
  | reassemblyDone
  | appRead
  | appReply
  | restartPkt
  | timerAbort
deriving DecidableEq, Repr

/-- Modelled from the spec: the state reached when the given operation is
applied to an RPC of the given role in the given state; none means the
operation does not change the state machine there. -/
def rpcStep : Role → RpcState → RpcOp → Option RpcState
  | .client, .RPC_OUTGOING, .dataPkt => some .RPC_INCOMING
  | .client, .RPC_INCOMING, .reassemblyDone => some .RPC_READY
  | .client, .RPC_READY, .appRead => some .RPC_CLIENT_DONE
  | .client, .RPC_OUTGOING, .restartPkt => some .RPC_OUTGOING
  | .client, .RPC_INCOMING, .restartPkt => some .RPC_OUTGOING
  | .client, .RPC_OUTGOING, .timerAbort => some .RPC_READY
  | .client, .RPC_INCOMING, .timerAbort => some .RPC_READY
  | .server, .RPC_INCOMING, .reassemblyDone => some .RPC_READY
  | .server, .RPC_READY, .appRead => some .RPC_IN_SERVICE
  | .server, .RPC_IN_SERVICE, .appReply => some .RPC_OUTGOING
  | _, _, _ => none

/-- The forward successor in the role-specific order claimed by the state
comment in homa_impl.h: client OUTGOING, INCOMING, READY, CLIENT_DONE;
server INCOMING, READY, IN_SERVICE, OUTGOING. -/
def roleNext : Role → RpcState → Option RpcState
  | .client, .RPC_OUTGOING => some .RPC_INCOMING
  | .client, .RPC_INCOMING => some .RPC_READY
  | .client, .RPC_READY => some .RPC_CLIENT_DONE
  | .server, .RPC_INCOMING => some .RPC_READY
  | .server, .RPC_READY => some .RPC_IN_SERVICE
  | .server, .RPC_IN_SERVICE => some .RPC_OUTGOING
  | _, _ => none

/-- C3 counterexample: the claim that no operation produces a transition
outside the role order fails at a concrete input. A client RPC in
RPC_INCOMING that receives a RESTART re-enters RPC_OUTGOING (homa_impl.h,
restart_header: the client restarts the RPC from the beginning, discarding
any partial response), which is a backward step, not the forward
RPC_INCOMING to RPC_READY transition. -/
theorem C3_restart_counterexample :
    rpcStep .client .RPC_INCOMING .restartPkt = some .RPC_OUTGOING
    ∧ roleNext .client .RPC_INCOMING ≠ some .RPC_OUTGOING
    ∧ RpcState.RPC_OUTGOING ≠ RpcState.RPC_INCOMING := by
  decide

/-- C3 (amended): every state change is either the forward step of the
role-specific order (client OUTGOING to INCOMING to READY to CLIENT_DONE;
server INCOMING to READY to IN_SERVICE to OUTGOING), or the state is
unchanged, or it is one of the two client-only exceptions: the RESTART
reset back to OUTGOING, and the timer abort to READY with the error field
set (a server RPC that times out is destroyed, never transitioned); and no
operation ever puts a client RPC in RPC_IN_SERVICE or a server RPC in
RPC_CLIENT_DONE. -/
theorem C3_state_order (r : Role) (s s' : RpcState) (op : RpcOp)
    (h : rpcStep r s op = some s') :
    (roleNext r s = some s' ∨ s' = s
      ∨ (r = .client ∧ op = .restartPkt ∧ s' = .RPC_OUTGOING)
      ∨ (r = .client ∧ op = .timerAbort ∧ s' = .RPC_READY))
    ∧ (r = .client → s' ≠ .RPC_IN_SERVICE)
    ∧ (r = .server → s' ≠ .RPC_CLIENT_DONE) := by
  revert h
  cases r <;> cases s <;> cases op <;> cases s' <;> decide

/-- Witness for C3 at a concrete transition: a server RPC in RPC_READY read
by the application, which moves forward to RPC_IN_SERVICE. -/
theorem C3_state_order_witness :
    (roleNext .server .RPC_READY = some .RPC_IN_SERVICE
      ∨ RpcState.RPC_IN_SERVICE = .RPC_READY
      ∨ (Role.server = .client ∧ RpcOp.appRead = .restartPkt
          ∧ RpcState.RPC_IN_SERVICE = .RPC_OUTGOING)
      ∨ (Role.server = .client ∧ RpcOp.appRead = .timerAbort
          ∧ RpcState.RPC_IN_SERVICE = .RPC_READY))
    ∧ (Role.server = .client → RpcState.RPC_IN_SERVICE ≠ .RPC_IN_SERVICE)
    ∧ (Role.server = .server → RpcState.RPC_IN_SERVICE ≠ .RPC_CLIENT_DONE) :=
  C3_state_order .server .RPC_READY .RPC_IN_SERVICE .appRead (by decide)

/-! ## Grant queue (homa->grantable_rpcs)

The list homa->grantable_rpcs is declared in homa_impl.h with the comment
that it is sorted in priority order, the head having the fewest
bytes_remaining. The code maintaining it (homa_manage_grants in
homa_incoming.c) is not among the sources, so the maintenance operations
are modelled from the specification: entries are kept in ascending order of
the key (bytes_remaining, insertion order); a new RPC is inserted with a
fresh insertion sequence number, and when bytes_remaining changes the entry
is repositioned, keeping its original sequence number. -/

structure GrantEntry where
  rpc_id : Nat
  bytes_remaining : Int
  seq : Nat
deriving DecidableEq, Repr

/-- Strict ascending order on the key (bytes_remaining, insertion order). -/
def entryLt (a b : GrantEntry) : Prop :=
  a.bytes_remaining < b.bytes_remaining
  ∨ (a.bytes_remaining = b.bytes_remaining ∧ a.seq < b.seq)

instance entryLt.decide (a b : GrantEntry) : Decidable (entryLt a b) := by
  unfold entryLt
  infer_instance

/-- The grant queue invariant: strictly ascending in (bytes_remaining,
insertion order). -/
def grantSorted (q : List GrantEntry) : Prop := List.Pairwise entryLt q

/-- The entry carries an insertion sequence number unused in the queue. -/
def seqFresh (e : GrantEntry) (q : List GrantEntry) : Prop :=
  ∀ x ∈ q, x.seq ≠ e.seq

/-- All queue entries carry distinct insertion sequence numbers. -/
def distinctSeqs (q : List GrantEntry) : Prop :=
  List.Pairwise (fun a b => a.seq ≠ b.seq) q

/-- Modelled from the spec: sorted insertion into the grant queue. The new
entry goes in front of the first entry it precedes in key order; among
equal bytes_remaining a fresh entry therefore lands behind the older
ones. -/
def grantInsert (e : GrantEntry) : List GrantEntry → List GrantEntry
  | [] => [e]
  | x :: xs => if entryLt e x then e :: x :: xs else x :: grantInsert e xs

/-- Modelled from the spec: repositioning after bytes_remaining changes:
the entry is unlinked and reinserted with the new byte count, keeping its
original insertion sequence number. -/
def grantReposition (q : List GrantEntry) (e : GrantEntry) (r : Int) :
    List GrantEntry :=
  grantInsert { e with bytes_remaining := r } (q.erase e)

theorem entryLt_trans {a b c : GrantEntry} (h1 : entryLt a b)
    (h2 : entryLt b c) : entryLt a c := by
  unfold entryLt at *
  omega

theorem entryLt_of_not_lt {a b : GrantEntry} (hne : a.seq ≠ b.seq)
    (h : ¬ entryLt a b) : entryLt b a := by
  unfold entryLt at *
  omega

theorem mem_grantInsert {y e : GrantEntry} {q : List GrantEntry}
    (h : y ∈ grantInsert e q) : y = e ∨ y ∈ q := by
  induction q with
  | nil =>
    simp only [grantInsert, List.mem_singleton] at h
    exact Or.inl h
  | cons x xs ih =>
    simp only [grantInsert] at h
    split at h
    · rcases List.mem_cons.mp h with h | h
      · exact Or.inl h
      · exact Or.inr h
    · rcases List.mem_cons.mp h with h | h
      · exact Or.inr (h ▸ List.mem_cons_self x xs)
      · rcases ih h with h | h
        · exact Or.inl h
        · exact Or.inr (List.mem_cons_of_mem x h)

theorem grantInsert_sorted {e : GrantEntry} {q : List GrantEntry}
    (hs : grantSorted q) (hf : seqFresh e q) :
    grantSorted (grantInsert e q) := by
  induction q with
  | nil => exact List.pairwise_singleton entryLt e
  | cons x xs ih =>
    rcases List.pairwise_cons.mp hs with ⟨hx, hxs⟩
    unfold grantInsert
    split
    · next hlt =>
      refine List.pairwise_cons.mpr ⟨?_, hs⟩
      intro y hy
      rcases List.mem_cons.mp hy with rfl | hy
      · exact hlt
      · exact entryLt_trans hlt (hx y hy)
    · next hlt =>
      refine List.pairwise_cons.mpr ⟨?_, ?_⟩
      · intro y hy
        rcases mem_grantInsert hy with rfl | hy
        · exact entryLt_of_not_lt
            (fun hseq => hf x (List.mem_cons_self x xs) hseq.symm) hlt
        · exact hx y hy
      · exact ih hxs (fun z hz => hf z (List.mem_cons_of_mem x hz))

theorem seqFresh_erase {e : GrantEntry} {q : List GrantEntry}
    (hd : distinctSeqs q) (hm : e ∈ q) : ∀ x ∈ q.erase e, x.seq ≠ e.seq := by
  induction q with
  | nil => cases hm
  | cons y ys ih =>
    rcases List.pairwise_cons.mp hd with ⟨hy, hys⟩
    by_cases hye : y = e
    · subst hye
      rw [List.erase_cons_head]
      intro x hx
      exact fun hseq => hy x hx hseq.symm
    · rw [List.erase_cons_tail]
      · intro x hx
        rcases List.mem_cons.mp hx with rfl | hx
        · have hm' : e ∈ ys := by
            rcases List.mem_cons.mp hm with h | h
            · exact absurd h.symm hye
            · exact h
          exact hy e hm'
        · exact ih hys (by
            rcases List.mem_cons.mp hm with h | h
            · exact absurd h.symm hye
            · exact h) x hx
      · simp [hye]

/-- C4: the grant queue stays sorted strictly ascending in the key
(bytes_remaining, insertion order) under both maintenance operations:
inserting a new RPC with a fresh insertion sequence number, and
repositioning an entry whose bytes_remaining changed; consequently the
head always has the fewest bytes_remaining, ties resolved toward the
earlier insertion. -/
theorem C4_grant_queue_sorted :
    (∀ q e, grantSorted q → seqFresh e q → grantSorted (grantInsert e q))
    ∧ (∀ q e r, grantSorted q → distinctSeqs q → e ∈ q →
        grantSorted (grantReposition q e r))
    ∧ (∀ q x h, grantSorted q → q.head? = some h → x ∈ q →
        x = h ∨ entryLt h x) := by
  refine ⟨fun q e hs hf => grantInsert_sorted hs hf, ?_, ?_⟩
  · intro q e r hs hd hm
    unfold grantReposition
    refine grantInsert_sorted (List.Pairwise.sublist (q.erase_sublist e) hs) ?_
    intro x hx
    exact seqFresh_erase hd hm x hx
  · intro q x h hs hh hm
    cases q with
    | nil => cases hm
    | cons y ys =>
      cases hh
      rcases List.mem_cons.mp hm with rfl | hm
      · exact Or.inl rfl
      · exact Or.inr ((List.pairwise_cons.mp hs).1 x hm)

/-- Witness for C4 at a concrete queue: inserting a fresh entry with five
bytes remaining between entries with four and nine leaves the queue
sorted. -/
theorem C4_grant_queue_sorted_witness :
    grantSorted (grantInsert ⟨3, 5, 2⟩ [⟨1, 4, 0⟩, ⟨2, 9, 1⟩]) :=
  C4_grant_queue_sorted.1 [⟨1, 4, 0⟩, ⟨2, 9, 1⟩] ⟨3, 5, 2⟩
    (by unfold grantSorted; decide) (by unfold seqFresh; decide)

/-! ## Wire encoding and byte order

The struct declarations in homa_impl.h mark every multi-byte integer field
as big-endian (__be16/__be32) except the 64-bit id, which is declared
__be64 but documented as stored in client host byte order. The actual
serialization code is in the .c files, not among the sources, so the
encoders below are modelled from those declarations: big-endian fields are
written with their most significant byte first (as htons/htonl produce),
and the id is written as the eight bytes of the client's native
representation, verbatim. Byte lists model the wire; every byte is a Nat
below 256 when the header is valid. -/

/-- Big-endian bytes of a 16-bit value, most significant first. -/
def be2 (v : Nat) : List Nat := [v / 256 % 256, v % 256]

/-- Big-endian bytes of a 32-bit value, most significant first. -/
def be4 (v : Nat) : List Nat :=
  [v / 16777216 % 256, v / 65536 % 256, v / 256 % 256, v % 256]

/-- Value of a big-endian byte sequence. -/
def fromBytesBE (bs : List Nat) : Nat :=
  bs.foldl (fun acc b => acc * 256 + b) 0

/-- Field values of a common_header: ports, the doff byte, the type byte,
and the eight bytes of the RPC id in the client's native order. -/
structure common_header_v where
  sport : Nat
  dport : Nat
  doff : Nat
  ptype : Nat
  id0 : Nat
  id1 : Nat
  id2 : Nat
  id3 : Nat
  id4 : Nat
  id5 : Nat
  id6 : Nat
  id7 : Nat
deriving DecidableEq, Repr

/-- The eight id bytes of a common header, in wire order. -/
def id_bytes (h : common_header_v) : List Nat :=
  [h.id0, h.id1, h.id2, h.id3, h.id4, h.id5, h.id6, h.id7]

/-- Modelled from the struct declaration: wire bytes of a common_header.
The ports are big-endian; unused1, unused2, unused3, checksum and unused4
are not used by Homa and are emitted as zero; the id bytes go out
verbatim. -/
def encode_common (h : common_header_v) : List Nat :=
  be2 h.sport ++ be2 h.dport
    ++ [0, 0, 0, 0, 0, 0, 0, 0, h.doff, h.ptype, 0, 0, 0, 0, 0, 0,
        h.id0, h.id1, h.id2, h.id3, h.id4, h.id5, h.id6, h.id7]

/-- Decoder for a common_header: reads the ports big-endian, the id bytes
verbatim, and returns the remaining bytes. -/
def decode_common : List Nat → Option (common_header_v × List Nat)
  | s0 :: s1 :: d0 :: d1 :: _ :: _ :: _ :: _ :: _ :: _ :: _ :: _
      :: dof :: ty :: _ :: _ :: _ :: _ :: _ :: _
      :: i0 :: i1 :: i2 :: i3 :: i4 :: i5 :: i6 :: i7 :: rest =>
    some (⟨fromBytesBE [s0, s1], fromBytesBE [d0, d1], dof, ty,
           i0, i1, i2, i3, i4, i5, i6, i7⟩, rest)
  | _ => none

/-- Field values of a grant_header. -/
structure grant_header_v where
  common : common_header_v
  offset : Nat
  priority : Nat
deriving DecidableEq, Repr

/-- Modelled from the struct declaration: wire bytes of a grant_header;
offset is big-endian, priority a single byte. -/
def encode_grant (h : grant_header_v) : List Nat :=
  encode_common h.common ++ be4 h.offset ++ [h.priority]

/-- Decoder for a grant_header. -/
def decode_grant (bs : List Nat) : Option grant_header_v :=
  match decode_common bs with
  | some (c, o0 :: o1 :: o2 :: o3 :: pr :: _) =>
    some ⟨c, fromBytesBE [o0, o1, o2, o3], pr⟩
  | _ => none

/-- Field values of a resend_header. -/
structure resend_header_v where
  common : common_header_v
  offset : Nat
  length : Nat
  priority : Nat
deriving DecidableEq, Repr

/-- Modelled from the struct declaration: wire bytes of a resend_header;
offset and length are big-endian, priority a single byte. -/
def encode_resend (h : resend_header_v) : List Nat :=
  encode_common h.common ++ be4 h.offset ++ be4 h.length ++ [h.priority]

/-- Decoder for a resend_header. -/
def decode_resend (bs : List Nat) : Option resend_header_v :=
  match decode_common bs with
  | some (c, o0 :: o1 :: o2 :: o3 :: l0 :: l1 :: l2 :: l3 :: pr :: _) =>
    some ⟨c, fromBytesBE [o0, o1, o2, o3], fromBytesBE [l0, l1, l2, l3], pr⟩
  | _ => none

/-- Field values of a data_header carrying one data_segment. -/
structure data_header_v where
  common : common_header_v
  message_length : Nat
  incoming : Nat
  cutoff_version : Nat
  retransmit : Nat
  seg_offset : Nat
  seg_length : Nat
deriving DecidableEq, Repr

/-- Modelled from the struct declaration: wire bytes of a data_header with
one segment; message_length, incoming, cutoff_version and the segment's
offset and segment_length are big-endian; retransmit and pad are single
bytes. -/
def encode_data (h : data_header_v) : List Nat :=
  encode_common h.common ++ be4 h.message_length ++ be4 h.incoming
    ++ be2 h.cutoff_version ++ [h.retransmit, 0]
    ++ be4 h.seg_offset ++ be4 h.seg_length

/-- Decoder for a data_header with one segment. -/
def decode_data (bs : List Nat) : Option data_header_v :=
  match decode_common bs with
  | some (c, m0 :: m1 :: m2 :: m3 :: n0 :: n1 :: n2 :: n3
      :: v0 :: v1 :: rt :: _ :: o0 :: o1 :: o2 :: o3
      :: l0 :: l1 :: l2 :: l3 :: _) =>
    some ⟨c, fromBytesBE [m0, m1, m2, m3], fromBytesBE [n0, n1, n2, n3],
          fromBytesBE [v0, v1], rt, fromBytesBE [o0, o1, o2, o3],
          fromBytesBE [l0, l1, l2, l3]⟩
  | _ => none

/-- Field values of a cutoffs_header. -/
structure cutoffs_header_v where
  common : common_header_v
  c0 : Nat
  c1 : Nat
  c2 : Nat
  c3 : Nat
  c4 : Nat
  c5 : Nat
  c6 : Nat
  c7 : Nat
  cutoff_version : Nat
deriving DecidableEq, Repr

/-- Modelled from the struct declaration: wire bytes of a cutoffs_header;
the eight unscheduled-cutoff entries and the version are big-endian. -/
def encode_cutoffs (h : cutoffs_header_v) : List Nat :=
  encode_common h.common ++ be4 h.c0 ++ be4 h.c1 ++ be4 h.c2 ++ be4 h.c3
    ++ be4 h.c4 ++ be4 h.c5 ++ be4 h.c6 ++ be4 h.c7 ++ be2 h.cutoff_version

/-- Decoder for a cutoffs_header. -/
def decode_cutoffs (bs : List Nat) : Option cutoffs_header_v :=
  match decode_common bs with
  | some (c, a0 :: a1 :: a2 :: a3 :: b0 :: b1 :: b2 :: b3
      :: c0 :: c1 :: c2 :: c3 :: d0 :: d1 :: d2 :: d3
      :: e0 :: e1 :: e2 :: e3 :: f0 :: f1 :: f2 :: f3
      :: g0 :: g1 :: g2 :: g3 :: h0 :: h1 :: h2 :: h3
      :: v0 :: v1 :: _) =>
    some ⟨c, fromBytesBE [a0, a1, a2, a3], fromBytesBE [b0, b1, b2, b3],
          fromBytesBE [c0, c1, c2, c3], fromBytesBE [d0, d1, d2, d3],
          fromBytesBE [e0, e1, e2, e3], fromBytesBE [f0, f1, f2, f3],
          fromBytesBE [g0, g1, g2, g3], fromBytesBE [h0, h1, h2, h3],
          fromBytesBE [v0, v1]⟩
  | _ => none

/-- Modelled from the spec: when the server builds a reply header it copies
the id of the request verbatim (it never byte-swaps it). -/
def server_echo (req reply : common_header_v) : common_header_v :=
  { reply with id0 := req.id0, id1 := req.id1, id2 := req.id2,
               id3 := req.id3, id4 := req.id4, id5 := req.id5,
               id6 := req.id6, id7 := req.id7 }

/-- Ports fit in 16 bits. -/
def common_valid (h : common_header_v) : Prop :=
  h.sport < 65536 ∧ h.dport < 65536

theorem decode_encode_common (h : common_header_v) (rest : List Nat)
    (hv : common_valid h) :
    decode_common (encode_common h ++ rest) = some (h, rest) := by
  rcases h with ⟨sport, dport, dof, ty, i0, i1, i2, i3, i4, i5, i6, i7⟩
  obtain ⟨hs, hd⟩ := hv
  dsimp only at hs hd
  simp only [encode_common, be2, List.cons_append, List.nil_append,
    decode_common, fromBytesBE, List.foldl_cons, List.foldl_nil,
    Option.some.injEq, Prod.mk.injEq, common_header_v.mk.injEq]
  refine ⟨⟨?_, ?_, trivial, trivial, trivial, trivial, trivial, trivial,
    trivial, trivial, trivial, trivial⟩, trivial⟩
  · omega
  · omega

theorem decode_encode_grant (g : grant_header_v)
    (hv : common_valid g.common) (ho : g.offset < 4294967296) :
    decode_grant (encode_grant g) = some g := by
  rcases g with ⟨c, offset, pr⟩
  dsimp only at hv ho ⊢
  unfold encode_grant decode_grant
  dsimp only
  simp only [List.append_assoc]
  rw [decode_encode_common c _ hv]
  simp only [be4, List.cons_append, List.nil_append, fromBytesBE,
    List.foldl_cons, List.foldl_nil, Option.some.injEq,
    grant_header_v.mk.injEq]
  refine ⟨trivial, ?_, trivial⟩
  omega

theorem decode_encode_resend (r : resend_header_v)
    (hv : common_valid r.common) (ho : r.offset < 4294967296)
    (hl : r.length < 4294967296) :
    decode_resend (encode_resend r) = some r := by
  rcases r with ⟨c, offset, len, pr⟩
  dsimp only at hv ho hl ⊢
  unfold encode_resend decode_resend
  dsimp only
  simp only [List.append_assoc]
  rw [decode_encode_common c _ hv]
  simp only [be4, List.cons_append, List.nil_append, fromBytesBE,
    List.foldl_cons, List.foldl_nil, Option.some.injEq,
    resend_header_v.mk.injEq]
  refine ⟨trivial, ?_, ?_, trivial⟩
  · omega
  · omega

theorem decode_encode_data (d : data_header_v)
    (hv : common_valid d.common) (hm : d.message_length < 4294967296)
    (hi : d.incoming < 4294967296) (hc : d.cutoff_version < 65536)
    (hso : d.seg_offset < 4294967296) (hsl : d.seg_length < 4294967296) :
    decode_data (encode_data d) = some d := by
  rcases d with ⟨c, ml, inc, cv, rt, so, sl⟩
  dsimp only at hv hm hi hc hso hsl ⊢
  unfold encode_data decode_data
  dsimp only
  simp only [List.append_assoc]
  rw [decode_encode_common c _ hv]
  simp only [be4, be2, List.cons_append, List.nil_append, fromBytesBE,
    List.foldl_cons, List.foldl_nil, Option.some.injEq,
    data_header_v.mk.injEq]
  refine ⟨trivial, ?_, ?_, ?_, trivial, ?_, ?_⟩ <;> omega

theorem decode_encode_cutoffs (h : cutoffs_header_v)
    (hv : common_valid h.common)
    (h0 : h.c0 < 4294967296) (h1 : h.c1 < 4294967296)
    (h2 : h.c2 < 4294967296) (h3 : h.c3 < 4294967296)
    (h4 : h.c4 < 4294967296) (h5 : h.c5 < 4294967296)
    (h6 : h.c6 < 4294967296) (h7 : h.c7 < 4294967296)
    (hcv : h.cutoff_version < 65536) :
    decode_cutoffs (encode_cutoffs h) = some h := by
  rcases h with ⟨c, c0, c1, c2, c3, c4, c5, c6, c7, cv⟩
  dsimp only at hv h0 h1 h2 h3 h4 h5 h6 h7 hcv ⊢
  unfold encode_cutoffs decode_cutoffs
  dsimp only
  simp only [List.append_assoc]
  rw [decode_encode_common c _ hv]
  simp only [be4, be2, List.cons_append, List.nil_append, fromBytesBE,
    List.foldl_cons, List.foldl_nil, Option.some.injEq,
    cutoffs_header_v.mk.injEq]
  refine ⟨trivial, ?_, ?_, ?_, ?_, ?_, ?_, ?_, ?_, ?_⟩ <;> omega

theorem encode_common_id_verbatim (h : common_header_v) :
    (encode_common h).drop 20 = id_bytes h := by
  rcases h with ⟨sport, dport, dof, ty, i0, i1, i2, i3, i4, i5, i6, i7⟩
  rfl

/-- C7: in the wire encoding and decoding of every packet type, every
multi-byte integer field (sport, dport, message_length, incoming,
cutoff_version, offset, length, the unsched_cutoffs entries) round-trips
through big-endian byte order, while the 64-bit RPC id is written and read
as its eight client-native bytes without any byte-order conversion, and a
server reply echoes those bytes verbatim. -/
theorem C7_wire_byte_order :
    (∀ h rest, common_valid h →
        decode_common (encode_common h ++ rest) = some (h, rest))
    ∧ (∀ g : grant_header_v, common_valid g.common →
        g.offset < 4294967296 → decode_grant (encode_grant g) = some g)
    ∧ (∀ r : resend_header_v, common_valid r.common →
        r.offset < 4294967296 → r.length < 4294967296 →
        decode_resend (encode_resend r) = some r)
    ∧ (∀ d : data_header_v, common_valid d.common →
        d.message_length < 4294967296 → d.incoming < 4294967296 →
        d.cutoff_version < 65536 → d.seg_offset < 4294967296 →
        d.seg_length < 4294967296 → decode_data (encode_data d) = some d)
    ∧ (∀ h : cutoffs_header_v, common_valid h.common →
        h.c0 < 4294967296 → h.c1 < 4294967296 → h.c2 < 4294967296 →
        h.c3 < 4294967296 → h.c4 < 4294967296 → h.c5 < 4294967296 →
        h.c6 < 4294967296 → h.c7 < 4294967296 → h.cutoff_version < 65536 →
        decode_cutoffs (encode_cutoffs h) = some h)
    ∧ (∀ h, (encode_common h).drop 20 = id_bytes h)
    ∧ (∀ req rep, id_bytes (server_echo req rep) = id_bytes req) :=
  ⟨fun h rest hv => decode_encode_common h rest hv,
   fun g hv ho => decode_encode_grant g hv ho,
   fun r hv ho hl => decode_encode_resend r hv ho hl,
   fun d hv hm hi hc hso hsl => decode_encode_data d hv hm hi hc hso hsl,
   fun h hv h0 h1 h2 h3 h4 h5 h6 h7 hcv =>
     decode_encode_cutoffs h hv h0 h1 h2 h3 h4 h5 h6 h7 hcv,
   fun h => encode_common_id_verbatim h,
   fun _ _ => rfl⟩

/-- Witness for C7 at a concrete grant header: port 40000 to port 99,
offset 77777, priority 5, id bytes 1 through 8, all fields recovered. -/
theorem C7_wire_byte_order_witness :
    decode_grant (encode_grant
      ⟨⟨40000, 99, 0, 21, 1, 2, 3, 4, 5, 6, 7, 8⟩, 77777, 5⟩) =
    some ⟨⟨40000, 99, 0, 21, 1, 2, 3, 4, 5, 6, 7, 8⟩, 77777, 5⟩ :=
  C7_wire_byte_order.2.1 ⟨⟨40000, 99, 0, 21, 1, 2, 3, 4, 5, 6, 7, 8⟩, 77777, 5⟩
    (by constructor <;> decide) (by decide)

/-! ## Unscheduled priorities (homa.unsched_cutoffs, homa_unsched_priority)

The configuration array homa.unsched_cutoffs is declared in homa_impl.h
with the documented invariant that at least one of its eight entries is
HOMA_MAX_MESSAGE_SIZE or greater (entry 0 is usually INT_MAX).
homa_unsched_priority is only declared there; its body (homa_utils.c) is
not among the sources, so it is modelled from the specification and the
array's documentation: the value of entry i is the largest message size
that uses priority i, larger i being higher priority, so the function scans
the levels from highest to lowest and picks the first whose cutoff covers
the message length. -/

/-- Modelled from the spec: homa_unsched_priority scans the priority
levels from HOMA_NUM_PRIORITIES - 1 down to 0 and returns the first level
whose cutoff is at least the message length; none if no level covers it. -/
def homa_unsched_priority (cutoffs : List Int) (len : Int) : Option Nat :=
  (List.range HOMA_NUM_PRIORITIES).reverse.find?
    (fun i => decide (len ≤ cutoffs.getD i 0))

/-- C10: whenever the documented configuration invariant holds - some entry
of the 8-element unsched_cutoffs array is at least HOMA_MAX_MESSAGE_SIZE -
every valid message length from 0 to HOMA_MAX_MESSAGE_SIZE is covered by
some entry, and homa_unsched_priority finds a priority level whose cutoff
covers it. -/
theorem C10_unsched_priority_total (cutoffs : List Int) (len : Int)
    (hinv : ∃ i, i < HOMA_NUM_PRIORITIES
      ∧ HOMA_MAX_MESSAGE_SIZE ≤ cutoffs.getD i 0)
    (h0 : 0 ≤ len) (hmax : len ≤ HOMA_MAX_MESSAGE_SIZE) :
    ∃ p, homa_unsched_priority cutoffs len = some p
      ∧ p < HOMA_NUM_PRIORITIES ∧ len ≤ cutoffs.getD p 0 := by
  obtain ⟨i, hi, hc⟩ := hinv
  have hmem : i ∈ (List.range HOMA_NUM_PRIORITIES).reverse := by
    rw [List.mem_reverse, List.mem_range]
    exact hi
  have hsat : (fun j => decide (len ≤ cutoffs.getD j 0)) i = true := by
    simp only [decide_eq_true_eq]
    exact le_trans hmax hc
  have hsome : (homa_unsched_priority cutoffs len).isSome := by
    unfold homa_unsched_priority
    rw [List.find?_isSome]
    exact ⟨i, hmem, hsat⟩
  obtain ⟨p, hp⟩ := Option.isSome_iff_exists.mp hsome
  refine ⟨p, hp, ?_, ?_⟩
  · have := List.find?_some hp
    have hpmem : p ∈ (List.range HOMA_NUM_PRIORITIES).reverse :=
      List.mem_of_find?_eq_some hp
    rw [List.mem_reverse, List.mem_range] at hpmem
    exact hpmem
  · have := List.find?_some hp
    simpa only [decide_eq_true_eq] using this

/-- Witness for C10 at a concrete configuration: cutoffs with entry 0 set
to INT_MAX and a 500-byte message. -/
theorem C10_unsched_priority_total_witness :
    ∃ p, homa_unsched_priority [2147483647, 0, 0, 0, 0, 0, 0, 0] 500 = some p
      ∧ p < HOMA_NUM_PRIORITIES
      ∧ (500 : Int) ≤ [(2147483647 : Int), 0, 0, 0, 0, 0, 0, 0].getD p 0 :=
  C10_unsched_priority_total [2147483647, 0, 0, 0, 0, 0, 0, 0] 500
    ⟨0, by decide, by decide⟩ (by decide) (by decide)

end Homa
